import Mathlib

/-!
Shallow embedding of the onetun packet-plane snapshot (src/main.rs,
src/tunnel/tcp.rs, src/ip_sink.rs) and proofs about its claims.

Ports are modelled as `Nat`, byte values as `Nat`, byte chunks as `List Nat`.
-/

namespace Onetun

/-- `MAX_PACKET` from both src/main.rs and src/tunnel/tcp.rs. -/
def MAX_PACKET : Nat := 65536

/-- `MIN_PORT` from src/tunnel/tcp.rs. -/
def MIN_PORT : Nat := 1000

/-- `MAX_PORT` from src/tunnel/tcp.rs. -/
def MAX_PORT : Nat := 60999

/-- The half-open range `MIN_PORT..MAX_PORT` that `TcpPortPool::new`
enumerates (`PORT_RANGE` in src/tunnel/tcp.rs). -/
def PORT_RANGE : List Nat := List.range' MIN_PORT (MAX_PORT - MIN_PORT)

/-- Inner state of the TCP port pool (`TcpPortPoolInner` in src/tunnel/tcp.rs):
a queue of remaining free ports (`VecDeque`, head at the front) and the set of
taken ports (`HashSet`). -/
structure TcpPortPoolInner where
  queue : List Nat
  taken : Finset Nat
  deriving DecidableEq

namespace TcpPortPool

/-- `TcpPortPool::new`: enumerate `PORT_RANGE`, shuffle it (modelled by an
arbitrary permutation `perm` of `PORT_RANGE`, supplied by the caller), and
enqueue all ports; nothing is taken. -/
def new (perm : List Nat) : TcpPortPoolInner :=
  { queue := perm, taken := ∅ }

/-- `TcpPortPool::next`: pop the head of the queue and insert it into the taken
set; `none` when the queue is exhausted (the early error return leaves the
state unchanged). -/
def next (s : TcpPortPoolInner) : Option (Nat × TcpPortPoolInner) :=
  match s.queue with
  | [] => none
  | p :: rest => some (p, { queue := rest, taken := insert p s.taken })

/-- `TcpPortPool::release`: unconditionally push the port to the back of the
queue and remove it from the taken set. -/
def release (p : Nat) (s : TcpPortPoolInner) : TcpPortPoolInner :=
  { queue := s.queue ++ [p], taken := s.taken.erase p }

/-- Pool states reachable from `new` by any sequence of `next` and `release`
calls, with `release` allowed on an arbitrary port (as the code permits). -/
inductive Reachable : TcpPortPoolInner → Prop
  | init (perm : List Nat) (h : perm.Perm PORT_RANGE) : Reachable (new perm)
  | step_next (s : TcpPortPoolInner) (p : Nat) (s' : TcpPortPoolInner) :
      Reachable s → next s = some (p, s') → Reachable s'
  | step_release (s : TcpPortPoolInner) (p : Nat) :
      Reachable s → Reachable (release p s)

/-- Pool states reachable when every `release` call hands back a port that is
currently taken — the discipline the proxy server actually follows (a port is
released exactly once, after having been obtained from `next`). -/
inductive ReachableOk : TcpPortPoolInner → Prop
  | init (perm : List Nat) (h : perm.Perm PORT_RANGE) : ReachableOk (new perm)
  | step_next (s : TcpPortPoolInner) (p : Nat) (s' : TcpPortPoolInner) :
      ReachableOk s → next s = some (p, s') → ReachableOk s'
  | step_release (s : TcpPortPoolInner) (p : Nat) :
      ReachableOk s → p ∈ s.taken → ReachableOk (release p s)

/-- The pool invariant claimed by the spec: the queue and the taken set
partition `PORT_RANGE`, they are disjoint, and the queue has no duplicates. -/
def Invariant (s : TcpPortPoolInner) : Prop :=
  (∀ p, (p ∈ s.queue ∨ p ∈ s.taken) ↔ p ∈ PORT_RANGE) ∧
  (∀ p, p ∈ s.queue → p ∉ s.taken) ∧
  s.queue.Nodup

end TcpPortPool

theorem mem_PORT_RANGE {p : Nat} : p ∈ PORT_RANGE ↔ MIN_PORT ≤ p ∧ p < MAX_PORT := by
  have h : MIN_PORT + (MAX_PORT - MIN_PORT) = MAX_PORT := by decide
  rw [PORT_RANGE, List.mem_range'_1, h]

theorem nodup_PORT_RANGE : PORT_RANGE.Nodup :=
  List.nodup_range' _ _

/-- Outcome of the `try_read_buf` attempt on the readable real socket
(src/tunnel/tcp.rs lines 126-158): data is available (`avail pending`, where
`pending = []` models a read of size 0, i.e. EOF), the read would block, or
the read fails; `readyErr` models the `readable()` wait itself failing
(lines 160-163). -/
inductive ReadEvent
  | avail (pending : List Nat)
  | wouldBlock
  | readErr
  | readyErr
  deriving DecidableEq

/-- Outcome of `try_write` on the real socket (src/tunnel/tcp.rs 168-188). -/
inductive WriteEvent
  | wrote (n : Nat)
  | wouldBlock
  | writeErr
  deriving DecidableEq

/-- One `tokio::select!` outcome in the tcp.rs bridge loop: either the
readable branch fired, or the `data_to_real_client_rx.recv()` branch completed
with `some chunk` (followed by the given `try_write` outcome) or with `none`
(channel closed). -/
inductive BridgeEvent
  | readable (r : ReadEvent)
  | fromChan (chunk : Option (List Nat)) (w : WriteEvent)
  deriving DecidableEq

/-- What a bridge-loop iteration does after handling its event: break out of
the loop or go on to the next iteration. -/
inductive LoopAction
  | brk
  | cont
  deriving DecidableEq

/-- `try_read_buf` into a `Vec::with_capacity(MAX_PACKET)` reads at most
`MAX_PACKET` bytes of the pending data. -/
def tryReadBuf (pending : List Nat) : List Nat := pending.take MAX_PACKET

/-- One iteration of the tcp.rs bridge loop (lines 124-199), given the current
value of the `abort` flag: the loop action taken, and the chunk enqueued onto
`data_to_virtual_server_tx`, if any. A read of size > 0 enqueues exactly the
bytes read; a size-0 read or a read error breaks; `WouldBlock` continues; a
write result `Ok(size)` is only logged; a write error is logged and the
iteration ends without breaking; a `WouldBlock` write or a closed channel
breaks exactly when `abort` is set. -/
def bridgeStep (abort : Bool) : BridgeEvent → LoopAction × Option (List Nat)
  | .readable (.avail pending) =>
    let bytes := tryReadBuf pending
    if bytes.length > 0 then (.cont, some bytes) else (.brk, none)
  | .readable .wouldBlock => (.cont, none)
  | .readable .readErr => (.brk, none)
  | .readable .readyErr => (.brk, none)
  | .fromChan (some _) (.wrote _) => (.cont, none)
  | .fromChan (some _) .wouldBlock => if abort then (.brk, none) else (.cont, none)
  | .fromChan (some _) .writeErr => (.cont, none)
  | .fromChan none _ => if abort then (.brk, none) else (.cont, none)

/-- Bytes of a dequeued chunk that reach the real client socket when the OS
accepts `cap` bytes (src/tunnel/tcp.rs 168-174): `try_write` writes
`min(cap, chunk.length)` bytes and returns that size, which is only logged;
the rest of the chunk is dropped — nothing is re-queued. -/
def tryWriteDelivered (cap : Nat) (chunk : List Nat) : List Nat := chunk.take cap

/-- The write side of the bridge over a run of iterations: the i-th dequeued
chunk meets a socket accepting `caps[i]` bytes; result is the concatenation of
everything delivered to the real client socket. -/
def bridgeWriteRun : List Nat → List (List Nat) → List Nat
  | [], _ => []
  | _ :: _, [] => []
  | cap :: caps, chunk :: chunks =>
    tryWriteDelivered cap chunk ++ bridgeWriteRun caps chunks

/-- Per-connection cleanup-relevant state: the shared `abort` flag, whether
the VirtualPort is still registered with the WireGuard tunnel, and whether the
virtual port has been released back into the pool. -/
structure ConnState where
  abort : Bool
  registered : Bool
  released : Bool
  deriving DecidableEq

/-- The tcp.rs bridge loop (lines 124-199) over a finite trace of select
outcomes: `some s` when an event makes the loop break, `none` when the trace
is exhausted with the loop still running. -/
def runBridge : List BridgeEvent → ConnState → Option ConnState
  | [], _ => none
  | e :: rest, s =>
    match (bridgeStep s.abort e).1 with
    | .brk => some s
    | .cont => runBridge rest s

/-- src/tunnel/tcp.rs lines 201-203: after the loop exits, the handler stores
`true` into `abort` and returns `Ok(())`. -/
def handleLoopExit (s : ConnState) : ConnState := { s with abort := true }

/-- src/tunnel/tcp.rs lines 55-72: when `handle_tcp_proxy_connection`
returns, the spawned wrapper calls `wg.release_virtual_interface` for the
connection's `VirtualPort` and then `port_pool.release`. -/
def connCleanup (s : ConnState) : ConnState :=
  { s with registered := false, released := true }

/-- The per-connection task from the first bridge iteration on: run the bridge
loop on the event trace; when it exits, store `abort`, then perform the
wrapper's unregister-and-release cleanup. -/
def connTask (events : List BridgeEvent) (s : ConnState) : Option ConnState :=
  (runBridge events s).map (fun s' => connCleanup (handleLoopExit s'))

/-- `handle_tcp_proxy_connection` (src/tunnel/tcp.rs 77-204): the only `?`
early return is the await on the virtual-client ready signal (lines 118-121),
modelled by `readyOk`; afterwards the bridge loop runs, and the function
returns `Ok(())` whenever the loop exits. `none` models a loop that has not
yet exited. -/
def handleTcp (readyOk : Bool) (events : List BridgeEvent) (s : ConnState) :
    Option (Except Unit ConnState) :=
  if readyOk then (runBridge events s).map (fun s' => Except.ok (handleLoopExit s'))
  else some (Except.error ())

/-- Result of one `poll` call on the sink interface stack. -/
inductive SinkPoll
  | processed (worked : Bool)
  | pollFailed
  deriving DecidableEq

/-- Milliseconds slept at the end of a sink-loop iteration
(src/ip_sink.rs 18-32): 1 ms after a poll that processed packets, 5 ms after
a poll that did nothing — and no sleep at all after a poll error, whose match
arm only logs. -/
def sinkSleepMillis : SinkPoll → Nat
  | .processed true => 1
  | .processed false => 5
  | .pollFailed => 0

/-- Capacity passed to `tokio::sync::mpsc::channel` for both per-connection
chunk channels in src/tunnel/tcp.rs (lines 91 and 95). -/
def tcpBridgeChannelCapacity : Nat := 1000

/-- Capacity passed to `tokio::sync::mpsc::channel` for both per-connection
chunk channels in src/main.rs (lines 138-141). -/
def mainBridgeChannelCapacity : Nat := 1000000

/-- State seen by the main.rs virtual-interface client-socket branches: the
virtual client socket's receive buffer, and the buffered chunks of the
`data_to_real_client` channel together with its capacity. -/
structure VifRecvState where
  rxBuf : List Nat
  chan : List (List Nat)
  chanCap : Nat
  deriving DecidableEq

/-- src/main.rs lines 336-355: if the client socket `can_recv` (receive
buffer non-empty), `recv` consumes the whole buffer into a fresh chunk, and
the chunk is sent with an awaited `send`: appended to the channel when there
is room, otherwise the task suspends inside `send` still holding the chunk
(second component `some chunk`). Either way the receive buffer is emptied. -/
def mainRecvBranch (s : VifRecvState) : VifRecvState × Option (List Nat) :=
  if s.rxBuf = [] then (s, none)
  else if s.chan.length < s.chanCap then
    ({ s with rxBuf := [], chan := s.chan ++ [s.rxBuf] }, none)
  else
    ({ s with rxBuf := [] }, some s.rxBuf)

/-- src/main.rs lines 356-370: when the client socket `can_send`, `try_recv`
dequeues a buffered chunk if any, and `send_slice` copies as many of its bytes
as fit in the socket's free send capacity `cap`, returning that count, which
the code ignores: the unsent remainder is not re-queued anywhere. Result:
(bytes accepted by the virtual socket, channel after the dequeue). -/
def mainSendBranch (cap : Nat) (chan : List (List Nat)) :
    List Nat × List (List Nat) :=
  match chan with
  | [] => ([], [])
  | chunk :: rest => (chunk.take cap, rest)

/-- The behaviour claim C5 mandates, following the spec's words: the unsent
remainder of the dequeued chunk is re-queued at the head of the channel. -/
def specSendBranch (cap : Nat) (chan : List (List Nat)) :
    List Nat × List (List Nat) :=
  match chan with
  | [] => ([], [])
  | chunk :: rest =>
    (chunk.take cap, if chunk.drop cap = [] then rest else chunk.drop cap :: rest)

/-- C2, as stated, fails: `release` pushes to the queue unconditionally, so a
`release` of a port that is still sitting in the free queue duplicates it.
The state obtained from a fresh pool by `release(1000)` is reachable yet its
queue contains `1000` twice, breaking the no-duplicates part of the invariant. -/
theorem C2_counterexample :
    TcpPortPool.Reachable { queue := PORT_RANGE ++ [1000], taken := ∅ } ∧
    ¬ TcpPortPool.Invariant { queue := PORT_RANGE ++ [1000], taken := ∅ } := by
  constructor
  · have h0 : TcpPortPool.Reachable (TcpPortPool.new PORT_RANGE) :=
      TcpPortPool.Reachable.init PORT_RANGE (List.Perm.refl _)
    have h1 := TcpPortPool.Reachable.step_release _ 1000 h0
    simpa [TcpPortPool.new, TcpPortPool.release] using h1
  · rintro ⟨-, -, hn⟩
    rw [List.nodup_append] at hn
    have h1000 : (1000 : Nat) ∈ PORT_RANGE := mem_PORT_RANGE.mpr (by decide)
    exact hn.2.2 h1000 (by simp)

/-- C2 (amended): the invariant `queue ∪ taken = [1000, 60999)`,
`queue ∩ taken = ∅`, `queue.Nodup` holds in every pool state reachable from
`new()` by `next()` calls and by `release(p)` calls whose port `p` is taken at
the time of the call — the discipline the proxy server follows. -/
theorem C2_amended_thm (s : TcpPortPoolInner) (h : TcpPortPool.ReachableOk s) :
    TcpPortPool.Invariant s := by
  induction h with
  | init perm hperm =>
    refine ⟨fun p => ?_, fun p hp => ?_, hperm.nodup_iff.mpr nodup_PORT_RANGE⟩
    · simp only [TcpPortPool.new, Finset.not_mem_empty, or_false]
      exact hperm.mem_iff
    · simp [TcpPortPool.new]
  | step_next s p s' hr hnext ih =>
    obtain ⟨hu, hd, hn⟩ := ih
    rcases hq : s.queue with - | ⟨q, rest⟩
    · simp only [TcpPortPool.next, hq] at hnext
      exact Option.noConfusion hnext
    · simp only [TcpPortPool.next, hq, Option.some.injEq, Prod.mk.injEq] at hnext
      obtain ⟨h1, h2⟩ := hnext
      subst h1
      subst h2
      rw [hq] at hd hn
      refine ⟨fun x => ?_, fun x hx => ?_, (List.nodup_cons.mp hn).2⟩
      · have hx := hu x
        rw [hq, List.mem_cons] at hx
        rw [Finset.mem_insert]
        tauto
      · rw [Finset.mem_insert]
        rintro (rfl | hmem)
        · exact (List.nodup_cons.mp hn).1 hx
        · exact hd x (List.mem_cons_of_mem _ hx) hmem
  | step_release s p hr hp ih =>
    obtain ⟨hu, hd, hn⟩ := ih
    refine ⟨fun x => ?_, fun x hx => ?_, ?_⟩
    · simp only [TcpPortPool.release, List.mem_append, List.mem_singleton,
        Finset.mem_erase]
      constructor
      · rintro ((hxq | rfl) | ⟨-, hxt⟩)
        · exact (hu x).mp (Or.inl hxq)
        · exact (hu x).mp (Or.inr hp)
        · exact (hu x).mp (Or.inr hxt)
      · intro hxr
        rcases (hu x).mpr hxr with hxq | hxt
        · exact Or.inl (Or.inl hxq)
        · by_cases hxp : x = p
          · exact Or.inl (Or.inr hxp)
          · exact Or.inr ⟨hxp, hxt⟩
    · simp only [TcpPortPool.release, List.mem_append, List.mem_singleton] at hx
      simp only [TcpPortPool.release, Finset.mem_erase]
      rintro ⟨hxp, hxt⟩
      rcases hx with hxq | rfl
      · exact hd x hxq hxt
      · exact hxp rfl
    · simp only [TcpPortPool.release]
      rw [List.nodup_append]
      refine ⟨hn, List.nodup_singleton _, ?_⟩
      intro a ha hb
      rw [List.mem_singleton] at hb
      subst hb
      exact hd a ha hp

/-- Witness for C2 (amended) at the unshuffled fresh pool. -/
theorem C2_witness : TcpPortPool.Invariant (TcpPortPool.new PORT_RANGE) :=
  C2_amended_thm _ (TcpPortPool.ReachableOk.init PORT_RANGE (List.Perm.refl _))

/-- C3, as stated, fails: on a fresh pool no port is taken, yet
`release(1000)` appends `1000` to the free queue, changing the state. -/
theorem C3_counterexample :
    1000 ∉ (TcpPortPool.new PORT_RANGE).taken ∧
    TcpPortPool.release 1000 (TcpPortPool.new PORT_RANGE) ≠
      TcpPortPool.new PORT_RANGE := by
  constructor
  · exact Finset.not_mem_empty _
  · intro h
    have hlen := congrArg (fun s => s.queue.length) h
    simp only [TcpPortPool.new, TcpPortPool.release] at hlen
    rw [List.length_append] at hlen
    have h2 : ([1000] : List Nat).length = 1 := rfl
    rw [h2] at hlen
    omega

/-- C3 (amended): releasing a port `p` that is not currently taken leaves the
taken set unchanged (the `HashSet` removal is a no-op) but still appends `p`
to the tail of the free queue; the pool state is not unchanged. -/
theorem C3_amended_thm (s : TcpPortPoolInner) (p : Nat) (hp : p ∉ s.taken) :
    TcpPortPool.release p s = { queue := s.queue ++ [p], taken := s.taken } := by
  simp only [TcpPortPool.release, Finset.erase_eq_of_not_mem hp]

/-- Witness for C3 (amended) at an emptied pool and port 1000. -/
theorem C3_witness :
    TcpPortPool.release 1000 (TcpPortPool.new []) =
      { queue := [1000], taken := ∅ } :=
  C3_amended_thm (TcpPortPool.new []) 1000 (by simp [TcpPortPool.new])

/-- C1 fails on the code: with chunk `[10, 20]` dequeued from the
to-real-client channel and the real socket accepting a single byte,
`try_write` returns `Ok 1`, only `[10]` is delivered, and the suffix `[20]`
is discarded — nothing re-queues it, so byte `20` is never written to the
real destination socket. -/
theorem C1_code_bug_eval :
    bridgeWriteRun [1] [[10, 20]] = [10] ∧
    bridgeWriteRun [1] [[10, 20]] ≠ [10, 20] := by
  decide

/-- C4, as stated, fails: at a state where the virtual client socket
`can_recv` (buffer `[7]`) and the to-real-client channel is full (one chunk
buffered, capacity 1), the main.rs branch still receives — the socket buffer
is emptied, the chunk being held by the suspended awaited `send`. -/
theorem C4_counterexample :
    (⟨[7], [[1]], 1⟩ : VifRecvState).rxBuf ≠ [] ∧
    ¬ (⟨[7], [[1]], 1⟩ : VifRecvState).chan.length <
        (⟨[7], [[1]], 1⟩ : VifRecvState).chanCap ∧
    (mainRecvBranch ⟨[7], [[1]], 1⟩).1.rxBuf ≠
      (⟨[7], [[1]], 1⟩ : VifRecvState).rxBuf := by
  decide

/-- C4 (amended): whenever the virtual client socket `can_recv`, the main.rs
branch consumes the entire receive buffer, regardless of channel fullness;
when the channel is full, the chunk is not dropped but held by the suspended
blocking `send` (the enqueue is awaited, not attempted non-blockingly). -/
theorem C4_amended_thm (s : VifRecvState) (hr : s.rxBuf ≠ [])
    (hfull : ¬ s.chan.length < s.chanCap) :
    mainRecvBranch s = ({ s with rxBuf := [] }, some s.rxBuf) := by
  rw [mainRecvBranch, if_neg hr, if_neg hfull]

/-- Witness for C4 (amended) at the counterexample state. -/
theorem C4_witness :
    mainRecvBranch ⟨[7], [[1]], 1⟩ = (⟨[], [[1]], 1⟩, some [7]) :=
  C4_amended_thm ⟨[7], [[1]], 1⟩ (by decide) (by decide)

/-- C5 fails on the code: with chunk `[10, 20]` at the head of the
to-real-server channel and the virtual socket's free send capacity 1,
`send_slice` accepts `[10]` and returns 1, but the remainder `[20]` is not
re-queued at the head as the claim requires — it is dropped. -/
theorem C5_code_bug_eval :
    mainSendBranch 1 [[10, 20]] = ([10], []) ∧
    specSendBranch 1 [[10, 20]] = ([10], [[20]]) ∧
    mainSendBranch 1 [[10, 20]] ≠ specSendBranch 1 [[10, 20]] := by
  decide

/-- C6: whenever the bridge loop exits, the handler stores `true` into the
shared `abort` flag, and the wrapper then removes the connection's
VirtualPort registration from the WireGuard tunnel and releases the virtual
port back into the pool. -/
theorem C6_cleanup (events : List BridgeEvent) (s r : ConnState)
    (h : connTask events s = some r) :
    r.abort = true ∧ r.registered = false ∧ r.released = true := by
  rcases hb : runBridge events s with - | s'
  · rw [connTask, hb] at h
    exact Option.noConfusion h
  · rw [connTask, hb] at h
    simp only [Option.map_some'] at h
    obtain rfl := Option.some.inj h
    exact ⟨rfl, rfl, rfl⟩

/-- Witness for C6 at a one-event trace whose EOF read breaks the loop. -/
theorem C6_witness :
    (⟨true, false, true⟩ : ConnState).abort = true ∧
    (⟨true, false, true⟩ : ConnState).registered = false ∧
    (⟨true, false, true⟩ : ConnState).released = true :=
  C6_cleanup [.readable (.avail [])] ⟨false, true, false⟩ ⟨true, false, true⟩
    (by decide)

/-- C7: in the tcp.rs bridge loop's read handling, a size-0 read (EOF)
breaks, a non-WouldBlock read error breaks, WouldBlock continues, and a
successful read enqueues exactly the bytes read onto the to-real-server
channel — at most `MAX_PACKET` of them. -/
theorem C7_read_dispatch (abort : Bool) (pending : List Nat)
    (h : pending ≠ []) :
    bridgeStep abort (.readable (.avail [])) = (.brk, none) ∧
    bridgeStep abort (.readable .readErr) = (.brk, none) ∧
    bridgeStep abort (.readable .wouldBlock) = (.cont, none) ∧
    bridgeStep abort (.readable (.avail pending)) =
      (.cont, some (tryReadBuf pending)) ∧
    (tryReadBuf pending).length ≤ MAX_PACKET := by
  have hlen : 0 < (tryReadBuf pending).length := by
    rw [tryReadBuf, List.length_take]
    rcases pending with - | ⟨a, rest⟩
    · exact absurd rfl h
    · simp [MAX_PACKET]
  refine ⟨rfl, rfl, rfl, ?_, ?_⟩
  · simp only [bridgeStep]
    rw [if_pos hlen]
  · rw [tryReadBuf, List.length_take]
    omega

/-- Witness for C7 at the one-byte read `[7]`. -/
theorem C7_witness :
    bridgeStep false (.readable (.avail [7])) = (.cont, some [7]) ∧
    (tryReadBuf [7]).length ≤ MAX_PACKET :=
  ⟨(C7_read_dispatch false [7] (by decide)).2.2.2.1,
   (C7_read_dispatch false [7] (by decide)).2.2.2.2⟩

/-- C8, as stated, fails: the src/main.rs bridge creates its two
per-connection chunk channels with capacity 1,000,000, not 1000. -/
theorem C8_counterexample :
    mainBridgeChannelCapacity = 1000000 ∧ mainBridgeChannelCapacity ≠ 1000 := by
  decide

/-- C8 (amended): the tunnel/tcp.rs bridge creates both per-connection chunk
channels with capacity exactly 1000, while the main.rs bridge creates its two
channels with capacity 1,000,000. -/
theorem C8_amended_thm :
    tcpBridgeChannelCapacity = 1000 ∧ mainBridgeChannelCapacity = 1000000 := by
  decide

/-- C9, as stated, fails: when the sink interface's poll returns an error,
the loop iteration performs no sleep at all (the error arm only logs),
rather than the claimed 5 ms sleep. -/
theorem C9_counterexample :
    sinkSleepMillis .pollFailed = 0 ∧ sinkSleepMillis .pollFailed ≠ 5 := by
  decide

/-- C9 (amended): a sink-loop iteration sleeps 1 ms when the poll processed
packets, 5 ms when the poll did nothing, and does not sleep when the poll
returned an error. -/
theorem C9_amended_thm :
    sinkSleepMillis (.processed true) = 1 ∧
    sinkSleepMillis (.processed false) = 5 ∧
    sinkSleepMillis .pollFailed = 0 := by
  decide

/-- C10, as stated, fails for write errors: a `try_write` error inside the
tcp.rs bridge loop is only logged and the loop continues (the one-event trace
is exhausted with the loop still running, result `none`), unlike a read
error, which does break the loop. -/
theorem C10_counterexample :
    runBridge [.fromChan (some [1]) .writeErr] ⟨false, true, false⟩ = none ∧
    runBridge [.readable .readErr] ⟨false, true, false⟩ ≠ none := by
  decide

/-- C10 (amended): `handle_tcp_proxy_connection` returns `Err` exactly when
the virtual-client ready-signal await fails; once the bridge loop runs, read
errors break the loop, write errors are only logged and the loop continues,
and every loop exit yields `Ok(())`. -/
theorem C10_amended_thm (readyOk : Bool) (events : List BridgeEvent)
    (s : ConnState) (r : Except Unit ConnState)
    (h : handleTcp readyOk events s = some r) :
    ((∃ s', r = Except.ok s') ↔ readyOk = true) ∧
    (∀ a c, (bridgeStep a (.fromChan (some c) .writeErr)).1 = .cont) ∧
    (∀ a, (bridgeStep a (.readable .readErr)).1 = .brk) := by
  refine ⟨?_, fun a c => rfl, fun a => rfl⟩
  rcases readyOk with - | -
  · rw [handleTcp, if_neg (by simp)] at h
    obtain rfl := Option.some.inj h
    constructor
    · rintro ⟨s', hs'⟩
      exact Except.noConfusion hs'
    · intro hfalse
      exact Bool.noConfusion hfalse
  · rw [handleTcp, if_pos rfl] at h
    rcases hb : runBridge events s with - | s'
    · rw [hb] at h
      exact Option.noConfusion h
    · rw [hb] at h
      simp only [Option.map_some'] at h
      obtain rfl := Option.some.inj h
      exact ⟨fun _ => rfl, fun _ => ⟨handleLoopExit s', rfl⟩⟩

/-- Witness for C10 (amended) at a ready connection whose first read errors. -/
theorem C10_witness :
    ((∃ s', (Except.ok (⟨true, true, false⟩ : ConnState) :
        Except Unit ConnState) = Except.ok s') ↔ true = true) ∧
    (∀ a c, (bridgeStep a (.fromChan (some c) .writeErr)).1 = .cont) ∧
    (∀ a, (bridgeStep a (.readable .readErr)).1 = .brk) :=
  C10_amended_thm true [.readable .readErr] ⟨false, true, false⟩
    (Except.ok ⟨true, true, false⟩) rfl

end Onetun
